import Mathlib

/-!
Shallow embedding of the retail sales dashboard (src/app.py): the data
loading, filtering, month grouping, continuous-variable binning, holiday
window selection, holiday-type classification and lift computations, with
theorems checking the specification's claims about them.  Dates are
modelled as integer day numbers, money and continuous measures as
rationals, and pandas data frames as lists of rows.
-/

namespace RetailDashboard

/-- One row of the merged base table (the result of `load_data`, with the
derived calendar columns `Month_Name`, `Week`, `Year` already present, as
the program assumes). -/
structure Row where
  date : Int
  store : Int
  dept : Int
  weeklySales : ℚ
  isHolidayX : Bool
  isSuperBowl : Bool
  isLaborDay : Bool
  isThanksgiving : Bool
  isChristmas : Bool
  fuelPrice : ℚ
  temperature : ℚ
  size : Int
  storeType : String
  monthName : String
  week : Int
  year : Int
deriving DecidableEq, Repr

abbrev Table := List Row

/-! ## Dataset loader (src/app.py lines 12-15) -/

/-- A raw tabular source: a header row of column names and the data rows. -/
structure CsvFile where
  header : List String
  rows : List (List String)
deriving DecidableEq, Repr

/-- The failure modes of reading the csv source. -/
inductive LoadError where
  | missingSource
  | malformed
  | dateColumnMissing
deriving DecidableEq, Repr

/-- The columns the rest of the program accesses. -/
def requiredColumns : List String :=
  ["Date", "Store", "Dept", "Weekly_Sales", "IsHoliday_x", "IsSuperBowl",
   "IsLaborDay", "IsThanksgiving", "IsChristmas", "Fuel_Price", "Temperature",
   "Size", "Type"]

/-- Embedding of `pd.read_csv('merged_data.csv', parse_dates=['Date'])`: it
fails when the source file is missing, when the rows are not rectangular
(a parse error), or when the `Date` column named by `parse_dates` is
absent.  No other column is checked at read time. -/
def read_csv (src : Option CsvFile) : Except LoadError CsvFile :=
  match src with
  | none => .error .missingSource
  | some f =>
      if f.rows.all (fun row => row.length == f.header.length) then
        if f.header.contains "Date" then .ok f else .error .dateColumnMissing
      else .error .malformed

/-- `load_data` (src/app.py line 12-15): the body is exactly the
`read_csv` call (the `st.cache_data` memoization has no effect on the
value). -/
def load_data (src : Option CsvFile) : Except LoadError CsvFile :=
  read_csv src

/-! ## Filter engine (src/app.py lines 40-52 and 134-143) -/

/-- The date-range mask
`(df['Date'] >= date_range[0]) & (df['Date'] <= date_range[1])`. -/
def dateFiltered (t : Table) (d0 d1 : Int) : Table :=
  t.filter (fun r => decide (d0 ≤ r.date) && decide (r.date ≤ d1))

/-- The holiday tri-state filter (src/app.py lines 49-52): `"Yes"` keeps
rows with `IsHoliday_x == True`, `"No"` keeps rows with
`IsHoliday_x == False`, anything else (the `"All"` option) keeps all. -/
def holidayFiltered (t : Table) (hf : String) : Table :=
  if hf == "Yes" then t.filter (fun r => r.isHolidayX == true)
  else if hf == "No" then t.filter (fun r => r.isHolidayX == false)
  else t

/-- `df_filtered` (src/app.py lines 40-52): date mask then holiday mask. -/
def df_filtered (t : Table) (d0 d1 : Int) (hf : String) : Table :=
  holidayFiltered (dateFiltered t d0 d1) hf

/-- `df_chart_filtered` (src/app.py lines 134-143): store and department
equality conjoined with the date mask, then the holiday mask. -/
def df_chart_filtered (t : Table) (store dept : Int) (d0 d1 : Int)
    (hf : String) : Table :=
  holidayFiltered
    (t.filter (fun r =>
      r.store == store && r.dept == dept &&
      decide (d0 ≤ r.date) && decide (r.date ≤ d1))) hf

/-- The predicate reading of the holiday tri-state, used to state the
filter-conjunction claim. -/
def holidayPred (hf : String) (r : Row) : Prop :=
  if hf = "Yes" then r.isHolidayX = true
  else if hf = "No" then r.isHolidayX = false
  else True

/-- Boolean form of the holiday tri-state mask. -/
def holidayKeep (hf : String) (r : Row) : Bool :=
  if hf == "Yes" then r.isHolidayX == true
  else if hf == "No" then r.isHolidayX == false
  else true

/-- Boolean form of the whole `df_filtered` predicate (the conjunction of
the holiday mask and the date mask). -/
def rowKeep (d0 d1 : Int) (hf : String) (r : Row) : Bool :=
  holidayKeep hf r && (decide (d0 ≤ r.date) && decide (r.date ≤ d1))

/-! ## Generic list helpers: first-seen de-duplication (pandas `unique`)
and insertion sort (the observable ordering of pandas group keys and
`sort_values` output) -/

/-- Order-of-first-appearance de-duplication, as `Series.unique`. -/
def uniqFirstSeen [DecidableEq α] (l : List α) : List α :=
  l.foldl (fun acc a => if a ∈ acc then acc else acc ++ [a]) []

/-- Insert into a list sorted by the boolean relation `le`. -/
def insertBy (le : α → α → Bool) (a : α) : List α → List α
  | [] => [a]
  | b :: bs => if le a b then a :: b :: bs else b :: insertBy le a bs

/-- Insertion sort by the boolean relation `le`. -/
def sortBy (le : α → α → Bool) (l : List α) : List α :=
  l.foldr (insertBy le) []

/-- Code-point comparison of characters, as Python compares strings. -/
def charLt (a b : Char) : Bool := decide (a.toNat < b.toNat)

/-- Lexicographic comparison of character lists by code point. -/
def lexLt : List Char → List Char → Bool
  | _, [] => false
  | [], _ :: _ => true
  | a :: as, b :: bs => charLt a b || (a == b && lexLt as bs)

/-- Python-style lexicographic strict order on strings. -/
def strLt (a b : String) : Bool := lexLt a.data b.data

/-- The matching non-strict order, used by the sorted groupby keys. -/
def strLe (a b : String) : Bool := !(strLt b a)

/-! ## Month grouping (src/app.py lines 160-170 and 212-222) -/

/-- `monthly_order`: the canonical calendar order used for `reindex`. -/
def monthly_order : List String :=
  ["January", "February", "March", "April", "May", "June",
   "July", "August", "September", "October", "November", "December"]

/-- `groupby(key)['Weekly_Sales'].sum()`: the observed keys in sorted
order, each paired with the sum of `Weekly_Sales` over its group. -/
def groupSumBy (key : Row → String) (t : Table) : List (String × ℚ) :=
  (sortBy strLe (uniqFirstSeen (t.map key))).map
    (fun k => (k, ((t.filter (fun r => key r == k)).map
      (fun r => r.weeklySales)).sum))

/-- `monthly_sales` (src/app.py lines 164-170 and 216-222):
`groupby('Month_Name')['Weekly_Sales'].sum().reindex(monthly_order)` —
one entry per canonical month name, `none` (NaN) when the month is absent
from the grouped input. -/
def monthly_sales (t : Table) : List (String × Option ℚ) :=
  monthly_order.map (fun m => (m, (groupSumBy (fun r => r.monthName) t).lookup m))

/-! ## Binning (src/app.py lines 313-317 and 335-339): `pd.cut` with an
integer number of bins -/

/-- The bin edges `pd.cut(x, bins=nb)` computes from the column's observed
minimum and maximum: `linspace(mn, mx, nb+1)` with the first edge lowered
by 0.1% of the range so the minimum falls inside the first bin (and the
degenerate `mn = mx` widening pandas applies). -/
def cutEdges (mn mx : ℚ) (nb : ℕ) : List ℚ :=
  if mn = mx then
    let lo := mn - (if mn = 0 then 1/1000 else |mn| / 1000)
    let hi := mx + (if mx = 0 then 1/1000 else |mx| / 1000)
    (List.range (nb + 1)).map (fun i : ℕ => lo + (i : ℚ) * (hi - lo) / (nb : ℚ))
  else
    (List.range (nb + 1)).map (fun i : ℕ =>
      if i = 0 then mn - (mx - mn) / 1000
      else mn + (i : ℚ) * (mx - mn) / (nb : ℚ))

/-- The bin a value falls into: the index `i` with
`edges[i] < x ≤ edges[i+1]` (pandas' default right-closed intervals),
`none` (NaN) when the value lies outside every bin. -/
def binIdx (edges : List ℚ) (x : ℚ) : Option ℕ :=
  (List.range (edges.length - 1)).find?
    (fun i => decide (edges.getD i 0 < x) && decide (x ≤ edges.getD (i + 1) 0))

/-- The fractional digits of a 3-decimal value, trailing zeros stripped
but at least one digit kept, as Python float repr prints these edges. -/
def fracStr (fr : ℕ) : String :=
  let d1 := fr / 100
  let d2 := fr / 10 % 10
  let d3 := fr % 10
  if d3 ≠ 0 then toString d1 ++ toString d2 ++ toString d3
  else if d2 ≠ 0 then toString d1 ++ toString d2
  else toString d1

/-- Decimal rendering of a bin edge at pandas' default label precision of
three decimals (`pd.cut` rounds the displayed breaks to `precision=3`). -/
def fmtQ (q : ℚ) : String :=
  let m : ℕ := (round (|q| * 1000)).toNat
  (if q < 0 then "-" else "") ++ toString (m / 1000) ++ "." ++ fracStr (m % 1000)

/-- The string form of a right-closed interval, as
`Interval.__str__` renders it: `"(lo, hi]"`. -/
def intervalStr (lo hi : ℚ) : String :=
  "(" ++ fmtQ lo ++ ", " ++ fmtQ hi ++ "]"

/-- `pd.cut(...).astype(str)` for one value: the stringified interval of
its bin, or `"nan"` outside every bin. -/
def binLabel (edges : List ℚ) (x : ℚ) : String :=
  match binIdx edges x with
  | some i => intervalStr (edges.getD i 0) (edges.getD (i + 1) 0)
  | none => "nan"

/-- The edges `pd.cut(df[col], bins=nb)` uses: computed from the observed
minimum and maximum of the (unfiltered) column. -/
def colEdges (f : Row → ℚ) (nb : ℕ) (t : Table) : List ℚ :=
  match (t.map f).min?, (t.map f).max? with
  | some mn, some mx => cutEdges mn mx nb
  | _, _ => []

/-- A table tagged with each row's bin index for the attribute `f`, the
embedding of adding the `Fuel_Bin`/`Temp_Bin` derived column. -/
def withBin (f : Row → ℚ) (edges : List ℚ) (t : Table) :
    List (Row × Option ℕ) :=
  t.map (fun r => (r, binIdx edges (f r)))

/-- `groupby(key)['Weekly_Sales'].mean()`: observed keys in sorted order,
each paired with the mean of `Weekly_Sales` over its group. -/
def groupMeanBy (key : Row → String) (t : Table) : List (String × ℚ) :=
  (sortBy strLe (uniqFirstSeen (t.map key))).map
    (fun k => (k, ((t.filter (fun r => key r == k)).map
        (fun r => r.weeklySales)).sum /
      (((t.filter (fun r => key r == k)).length : ℚ))))

/-- `fuel_sales` (src/app.py lines 313-317): bin `Fuel_Price` into 5 bins
over the unfiltered table, stringify the bins, group by the string label
and average `Weekly_Sales`. -/
def fuel_sales (t : Table) : List (String × ℚ) :=
  groupMeanBy (fun r => binLabel (colEdges (fun s => s.fuelPrice) 5 t) r.fuelPrice) t

/-- `temp_sales` (src/app.py lines 335-339): the same with `Temperature`
and 6 bins. -/
def temp_sales (t : Table) : List (String × ℚ) :=
  groupMeanBy (fun r => binLabel (colEdges (fun s => s.temperature) 6 t) r.temperature) t

/-- The numeric lower bound of the bin whose string label is `s`, read
back from the edges (0 when no bin has that label). -/
def labelLowerBound (edges : List ℚ) (s : String) : ℚ :=
  match (List.range (edges.length - 1)).find?
      (fun i => intervalStr (edges.getD i 0) (edges.getD (i + 1) 0) == s) with
  | some i => edges.getD i 0
  | none => 0

/-! ## Holiday windows (src/app.py lines 437-453) -/

/-- One anchor's window inside `get_holiday_windows`: the rows dated
within `pd.Timedelta(weeks=2)` (14 days) of the anchor, inclusive both
ends, tagged with the event name and
`Delta_Week = (Date - anchor).days // 7` (Python floor division). -/
def windowFor (t : Table) (anchor : Int) (name : String) :
    List (Row × String × Int) :=
  (t.filter (fun r =>
      decide (anchor - 14 ≤ r.date) && decide (r.date ≤ anchor + 14))).map
    (fun r => (r, name, Int.fdiv (r.date - anchor) 7))

/-- `get_holiday_windows` (src/app.py lines 437-444): the concatenation of
the per-anchor windows. -/
def get_holiday_windows (t : Table) (anchors : List Int) (name : String) :
    List (Row × String × Int) :=
  (anchors.map (fun a => windowFor t a name)).flatten

/-! ## Holiday-type classification (src/app.py lines 407-412 and 490-502) -/

/-- `get_holiday_type` (src/app.py lines 490-500): if/elif chain, first
true flag wins, `'None'` when no flag is set. -/
def get_holiday_type (r : Row) : String :=
  if r.isSuperBowl then "Super Bowl"
  else if r.isLaborDay then "Labor Day"
  else if r.isThanksgiving then "Thanksgiving"
  else if r.isChristmas then "Christmas"
  else "None"

/-- The vectorized classification building `df_holidays['Holiday_Type']`
(src/app.py lines 407-412): start from `'None'` and apply the four
`.loc` assignments in source order, each overwriting the previous. -/
def holidayTypeVec (r : Row) : String :=
  let h0 := "None"
  let h1 := if r.isSuperBowl then "Super Bowl" else h0
  let h2 := if r.isLaborDay then "Labor Day" else h1
  let h3 := if r.isThanksgiving then "Thanksgiving" else h2
  if r.isChristmas then "Christmas" else h3

/-- Count a boolean flag. -/
def bCount (b : Bool) : ℕ := if b then 1 else 0

/-- The mutual-exclusivity invariant of the four specific-holiday flags:
at most one is true on the row. -/
def atMostOneFlag (r : Row) : Prop :=
  bCount r.isSuperBowl + bCount r.isLaborDay + bCount r.isThanksgiving +
    bCount r.isChristmas ≤ 1

/-! ## Lift computation (src/app.py lines 505-531) -/

/-- The holiday types present in the view, excluding `'None'`
(src/app.py line 505): first-seen order, as `Series.unique`. -/
def holidayTypesOf (t : Table) : List String :=
  (uniqFirstSeen (t.map get_holiday_type)).filter (fun s => !(s == "None"))

/-- The `Weekly_Sales` values of the rows classified as `ht`. -/
def salesOfType (t : Table) (ht : String) : List ℚ :=
  (t.filter (fun r => get_holiday_type r == ht)).map (fun r => r.weeklySales)

/-- `Series.mean()`: NaN (`none`) on an empty selection. -/
def meanOpt (l : List ℚ) : Option ℚ :=
  if l.length = 0 then none else some (l.sum / (l.length : ℚ))

/-- One entry of the `results` list built in the loop at src/app.py
lines 509-524. -/
structure LiftRow where
  ht : String
  hAvg : Option ℚ
  nAvg : Option ℚ
  lift : Option ℚ
deriving DecidableEq, Repr

/-- The loop body (src/app.py lines 509-524): the holiday average, the
non-holiday baseline average, and the lift, which is left undefined
(`None`) when the baseline is zero (`not non_holiday_sales_avg`) or NaN
(`pd.isna`). -/
def liftRowFor (t : Table) (ht : String) : LiftRow :=
  let h := meanOpt (salesOfType t ht)
  let n := meanOpt (salesOfType t "None")
  { ht := ht, hAvg := h, nAvg := n,
    lift :=
      match n with
      | none => none
      | some b => if b = 0 then none else h.map (fun a => (a - b) / b * 100) }

/-- Descending comparison on the lift column, for
`sort_values(by='Sales_Lift_Percent', ascending=False)`. -/
def liftGe (x y : LiftRow) : Bool :=
  decide ((y.lift.getD 0) ≤ (x.lift.getD 0))

/-- `df_lift` (src/app.py lines 507-531): build one row per present
holiday type, `dropna()` (keep only rows whose three numeric fields are
all defined), then sort descending by lift percent. -/
def df_lift (t : Table) : List LiftRow :=
  sortBy liftGe
    (((holidayTypesOf t).map (liftRowFor t)).filter
      (fun x => x.hAvg.isSome && x.nAvg.isSome && x.lift.isSome))

/-! ## Concrete sample data for witnesses and counterexamples -/

/-- A default row all samples are variations of. -/
def baseRow : Row :=
  { date := 0, store := 1, dept := 1, weeklySales := 100,
    isHolidayX := false, isSuperBowl := false, isLaborDay := false,
    isThanksgiving := false, isChristmas := false, fuelPrice := 3,
    temperature := 60, size := 100, storeType := "A",
    monthName := "January", week := 1, year := 2010 }

/-- Sample table for the filter witness. -/
def wtC1 : Table := [baseRow, { baseRow with date := 5, isHolidayX := true }]

/-- A row violating the mutual-exclusivity invariant: Super Bowl and
Christmas both flagged. -/
def rowBoth : Row := { baseRow with isSuperBowl := true, isChristmas := true }

/-- A row with only the Labor Day flag set. -/
def rowLD : Row := { baseRow with isLaborDay := true }

/-- Sample table for the month-grouping witness. -/
def wtC3 : Table := [{ baseRow with monthName := "January" }]

/-- A row dated 14 days before the anchor used in the window witness. -/
def rowC5 : Row := baseRow

/-- Sample table for the lift witness: every row is a holiday week, so
there is no non-holiday baseline. -/
def wtC6 : Table := [{ baseRow with isSuperBowl := true }]

/-- A fuel price of 8 in the binning counterexample table. -/
def rowFuel8 : Row := { baseRow with fuelPrice := 8, weeklySales := 100 }

/-- A fuel price of 13 in the binning counterexample table. -/
def rowFuel13 : Row := { baseRow with fuelPrice := 13, weeklySales := 200 }

/-- The binning counterexample table: fuel prices 8 and 13, so the five
bin edges are 7.995, 9, 10, 11, 12, 13 and the two observed interval
labels sort lexicographically against their numeric order. -/
def ctC9 : Table := [rowFuel8, rowFuel13]

/-- A row with only the Thanksgiving flag set. -/
def rowC10 : Row := { baseRow with isThanksgiving := true }

/-! ## Generic helper lemmas about the sorting and grouping machinery -/

theorem mem_insertBy (le : α → α → Bool) (a x : α) (l : List α) :
    x ∈ insertBy le a l ↔ x = a ∨ x ∈ l := by
  induction l with
  | nil => simp [insertBy]
  | cons b bs ih =>
      cases h : le a b with
      | true => simp [insertBy, h]
      | false =>
          simp only [insertBy, h, Bool.false_eq_true, if_false, List.mem_cons, ih]
          tauto

theorem mem_sortBy (le : α → α → Bool) (x : α) (l : List α) :
    x ∈ sortBy le l ↔ x ∈ l := by
  induction l with
  | nil => simp [sortBy]
  | cons a as ih =>
      show x ∈ insertBy le a (sortBy le as) ↔ _
      rw [mem_insertBy]
      simp [ih]

theorem head_insertBy (le : α → α → Bool) (a : α) (l : List α) :
    (insertBy le a l).head? = some a ∨ (insertBy le a l).head? = l.head? := by
  cases l with
  | nil => simp [insertBy]
  | cons b bs => cases h : le a b <;> simp [insertBy, h]

theorem chain_insertBy (le : α → α → Bool)
    (htot : ∀ a b, le a b = false → le b a = true) (a : α) (l : List α)
    (hl : List.Chain' (fun x y => le x y = true) l) :
    List.Chain' (fun x y => le x y = true) (insertBy le a l) := by
  induction l with
  | nil => simp [insertBy]
  | cons b bs ih =>
      cases h : le a b with
      | true =>
          have h2 : insertBy le a (b :: bs) = a :: b :: bs := by
            simp [insertBy, h]
          rw [h2]
          exact List.chain'_cons.mpr ⟨h, hl⟩
      | false =>
          have h2 : insertBy le a (b :: bs) = b :: insertBy le a bs := by
            simp [insertBy, h]
          rw [h2]
          rcases List.chain'_cons'.mp hl with ⟨hb, hbs⟩
          refine List.chain'_cons'.mpr ⟨?_, ih hbs⟩
          intro y hy
          rcases head_insertBy le a bs with hh | hh
          · rw [hh] at hy
            simp only [Option.mem_def, Option.some.injEq] at hy
            subst hy
            exact htot a b h
          · rw [hh] at hy
            exact hb y hy

theorem chain_sortBy (le : α → α → Bool)
    (htot : ∀ a b, le a b = false → le b a = true) (l : List α) :
    List.Chain' (fun x y => le x y = true) (sortBy le l) := by
  induction l with
  | nil => exact List.chain'_nil
  | cons a as ih => exact chain_insertBy le htot a _ ih

theorem mem_uniq_aux [DecidableEq α] (x : α) (l : List α) :
    ∀ acc : List α,
      (x ∈ l.foldl (fun acc a => if a ∈ acc then acc else acc ++ [a]) acc ↔
        x ∈ acc ∨ x ∈ l) := by
  induction l with
  | nil => intro acc; simp
  | cons a as ih =>
      intro acc
      simp only [List.foldl_cons]
      rw [ih]
      by_cases h : a ∈ acc
      · rw [if_pos h]
        simp only [List.mem_cons]
        constructor
        · rintro (h1 | h1)
          · exact Or.inl h1
          · exact Or.inr (Or.inr h1)
        · rintro (h1 | rfl | h1)
          · exact Or.inl h1
          · exact Or.inl h
          · exact Or.inr h1
      · rw [if_neg h]
        simp only [List.mem_append, List.mem_singleton, List.mem_cons]
        tauto

theorem mem_uniqFirstSeen [DecidableEq α] (x : α) (l : List α) :
    x ∈ uniqFirstSeen l ↔ x ∈ l := by
  rw [uniqFirstSeen, mem_uniq_aux]
  simp

theorem charLt_asymm {a b : Char} (h : charLt a b = true) : charLt b a = false := by
  simp only [charLt, decide_eq_true_eq] at h
  simp only [charLt, decide_eq_false_iff_not]
  omega

theorem lexLt_asymm : ∀ as bs : List Char, lexLt as bs = true → lexLt bs as = false := by
  intro as
  induction as with
  | nil =>
      intro bs h
      cases bs with
      | nil => simp [lexLt] at h
      | cons b bs => simp [lexLt]
  | cons a as ih =>
      intro bs h
      cases bs with
      | nil => simp [lexLt] at h
      | cons b bs =>
          simp only [lexLt, Bool.or_eq_true, Bool.and_eq_true, beq_iff_eq] at h
          rcases h with hlt | ⟨heq, hrec⟩
          · have h1 := charLt_asymm hlt
            have h2 : (b == a) = false := by
              refine beq_eq_false_iff_ne.mpr ?_
              intro hba
              subst hba
              simp only [charLt, decide_eq_true_eq] at hlt
              omega
            simp [lexLt, h1, h2]
          · subst heq
            have h1 : charLt a a = false := by simp [charLt]
            simp [lexLt, h1, ih bs hrec]

theorem strLe_total (a b : String) (h : strLe a b = false) : strLe b a = true := by
  simp only [strLe, Bool.not_eq_false'] at h
  simp only [strLe, Bool.not_eq_true']
  exact lexLt_asymm _ _ h

theorem liftGe_total (x y : LiftRow) (h : liftGe x y = false) : liftGe y x = true := by
  simp only [liftGe, decide_eq_false_iff_not, not_le] at h
  simp only [liftGe, decide_eq_true_eq]
  exact le_of_lt h

theorem lookup_map_self (f : String → ℚ) (l : List String) (m : String) :
    (l.map (fun k => (k, f k))).lookup m =
      if m ∈ l then some (f m) else none := by
  induction l with
  | nil => simp [List.lookup]
  | cons a as ih =>
      by_cases h : m = a
      · subst h
        simp [List.lookup]
      · have hb : (m == a) = false := beq_eq_false_iff_ne.mpr h
        simp [List.lookup, hb, ih, h, List.mem_cons]

theorem mem_groupKeys (key : Row → String) (t : Table) (m : String) :
    m ∈ sortBy strLe (uniqFirstSeen (t.map key)) ↔ ∃ r ∈ t, key r = m := by
  rw [mem_sortBy, mem_uniqFirstSeen]
  simp only [List.mem_map]

theorem groupSumBy_lookup (key : Row → String) (t : Table) (m : String) :
    (groupSumBy key t).lookup m =
      if m ∈ sortBy strLe (uniqFirstSeen (t.map key))
      then some (((t.filter (fun r => key r == m)).map
        (fun r => r.weeklySales)).sum)
      else none := by
  unfold groupSumBy
  exact lookup_map_self _ _ m

/-- The classification helper: under the mutual-exclusivity invariant the
last-true-flag-wins vectorized assignment and the first-true-flag-wins
if/elif chain coincide. -/
theorem classify_agree (r : Row) (h : atMostOneFlag r) :
    holidayTypeVec r = get_holiday_type r := by
  obtain ⟨d, s, dp, w, ihx, sb, ld, tg, xm, fp, tp, sz, st, mn, wk, yr⟩ := r
  simp only [atMostOneFlag, bCount] at h
  cases sb <;> cases ld <;> cases tg <;> cases xm <;>
    simp_all [holidayTypeVec, get_holiday_type]

theorem df_filtered_eq_filter (t : Table) (d0 d1 : Int) (hf : String) :
    df_filtered t d0 d1 hf = t.filter (rowKeep d0 d1 hf) := by
  unfold df_filtered holidayFiltered dateFiltered rowKeep holidayKeep
  by_cases h1 : hf = "Yes"
  · simp [h1, List.filter_filter]
  · by_cases h2 : hf = "No"
    · simp [h1, h2, List.filter_filter]
    · simp [h1, h2]

theorem map_pair_filter (g : Row → Option ℕ) (p : Row → Bool) (t : Table) :
    (t.filter p).map (fun r => (r, g r)) =
      (t.map (fun r => (r, g r))).filter (fun x => p x.1) := by
  induction t with
  | nil => rfl
  | cons a as ih => cases h : p a <;> simp [List.filter_cons, h, ih]

/-! ## Claim theorems -/

/-- C1: for every base table, date range, holiday mode and (for the chart
view) store/department equality predicates, the filtered view contains a
row iff that row satisfies every active predicate — date within the
inclusive bounds, the holiday predicate for the selected mode, and the
equality predicates when present — and with mode All and unrestricted
date bounds the filter returns exactly the input rows. -/
theorem C1_filter_conjunction (t : Table) (d0 d1 : Int) (hf : String)
    (store dept : Int) :
    (∀ r : Row, r ∈ df_filtered t d0 d1 hf ↔
      r ∈ t ∧ (d0 ≤ r.date ∧ r.date ≤ d1) ∧ holidayPred hf r)
    ∧ (∀ r : Row, r ∈ df_chart_filtered t store dept d0 d1 hf ↔
      r ∈ t ∧ r.store = store ∧ r.dept = dept ∧
        (d0 ≤ r.date ∧ r.date ≤ d1) ∧ holidayPred hf r)
    ∧ (hf = "All" → (∀ r ∈ t, d0 ≤ r.date ∧ r.date ≤ d1) →
      df_filtered t d0 d1 hf = t) := by
  have hmem : ∀ (u : Table) (r : Row),
      r ∈ holidayFiltered u hf ↔ r ∈ u ∧ holidayPred hf r := by
    intro u r
    unfold holidayFiltered holidayPred
    by_cases h1 : hf = "Yes"
    · simp [h1, List.mem_filter]
    · by_cases h2 : hf = "No"
      · simp [h1, h2, List.mem_filter]
      · simp [h1, h2]
  refine ⟨?_, ?_, ?_⟩
  · intro r
    rw [df_filtered, hmem]
    unfold dateFiltered
    simp [List.mem_filter, and_assoc]
  · intro r
    rw [df_chart_filtered, hmem]
    simp [List.mem_filter, and_assoc]
  · intro hAll hbnd
    rw [df_filtered]
    have hdate : dateFiltered t d0 d1 = t := by
      unfold dateFiltered
      rw [List.filter_eq_self]
      intro r hr
      simp [hbnd r hr]
    rw [hdate]
    unfold holidayFiltered
    simp [hAll]

/-- Witness for C1: on a concrete table, All mode with unrestricted
bounds returns the input unchanged. -/
theorem C1_filter_conjunction_witness : df_filtered wtC1 0 100 "All" = wtC1 :=
  (C1_filter_conjunction wtC1 0 100 "All" 1 1).2.2 rfl (by decide)

/-- C2 counterexample: on a row with both the Super Bowl and the
Christmas flag set, the vectorized `df_holidays` assignment yields
Christmas (the last assignment wins), not the claimed Super Bowl that
the first-true-flag priority would give (and does give in
`get_holiday_type`). -/
theorem C2_counterexample :
    holidayTypeVec rowBoth = "Christmas"
    ∧ get_holiday_type rowBoth = "Super Bowl"
    ∧ ("Christmas" : String) ≠ "Super Bowl" :=
  ⟨rfl, rfl, by decide⟩

/-- C2 (amended): both classification sites are total over the five
labels; `get_holiday_type` gives the FIRST true flag priority (Super
Bowl > Labor Day > Thanksgiving > Christmas) while the vectorized
`df_holidays` assignment gives the LAST true flag priority (Christmas >
Thanksgiving > Labor Day > Super Bowl); the two agree on every row with
at most one flag set. -/
theorem C2_classification_amended (r : Row) :
    (get_holiday_type r = "Super Bowl" ∨ get_holiday_type r = "Labor Day" ∨
      get_holiday_type r = "Thanksgiving" ∨ get_holiday_type r = "Christmas" ∨
      get_holiday_type r = "None")
    ∧ (holidayTypeVec r = "Super Bowl" ∨ holidayTypeVec r = "Labor Day" ∨
      holidayTypeVec r = "Thanksgiving" ∨ holidayTypeVec r = "Christmas" ∨
      holidayTypeVec r = "None")
    ∧ (r.isSuperBowl = true → get_holiday_type r = "Super Bowl")
    ∧ (r.isSuperBowl = false → r.isLaborDay = true →
      get_holiday_type r = "Labor Day")
    ∧ (r.isSuperBowl = false → r.isLaborDay = false →
      r.isThanksgiving = true → get_holiday_type r = "Thanksgiving")
    ∧ (r.isSuperBowl = false → r.isLaborDay = false →
      r.isThanksgiving = false → r.isChristmas = true →
      get_holiday_type r = "Christmas")
    ∧ (r.isChristmas = true → holidayTypeVec r = "Christmas")
    ∧ (r.isChristmas = false → r.isThanksgiving = true →
      holidayTypeVec r = "Thanksgiving")
    ∧ (r.isChristmas = false → r.isThanksgiving = false →
      r.isLaborDay = true → holidayTypeVec r = "Labor Day")
    ∧ (r.isChristmas = false → r.isThanksgiving = false →
      r.isLaborDay = false → r.isSuperBowl = true →
      holidayTypeVec r = "Super Bowl")
    ∧ (atMostOneFlag r → holidayTypeVec r = get_holiday_type r) := by
  obtain ⟨d, s, dp, w, ihx, sb, ld, tg, xm, fp, tp, sz, st, mn, wk, yr⟩ := r
  cases sb <;> cases ld <;> cases tg <;> cases xm <;>
    simp_all [holidayTypeVec, get_holiday_type, atMostOneFlag, bCount]

/-- Witness for C2 (amended): a concrete Labor Day row classifies as
Labor Day under the if/elif chain. -/
theorem C2_classification_amended_witness :
    get_holiday_type rowLD = "Labor Day" :=
  (C2_classification_amended rowLD).2.2.2.1 rfl rfl

/-- C10: the vectorized sequential flag assignments and the row-wise
if/elif function assign the same label to every row in which at most one
of the four specific-holiday flags is true. -/
theorem C10_classifications_agree (r : Row) (h : atMostOneFlag r) :
    holidayTypeVec r = get_holiday_type r :=
  classify_agree r h

/-- Witness for C10 at a concrete single-flag row. -/
theorem C10_classifications_agree_witness :
    holidayTypeVec rowC10 = get_holiday_type rowC10 :=
  C10_classifications_agree rowC10 (by unfold atMostOneFlag bCount; decide)

/-- C3: grouping weekly sales by month name and summing always returns
exactly 12 entries in canonical calendar order; a month absent from the
input appears with an explicitly missing value (`none`, the embedding of
NaN) rather than being dropped. -/
theorem C3_month_completeness (t : Table) :
    (monthly_sales t).length = 12
    ∧ (monthly_sales t).map Prod.fst = monthly_order
    ∧ (∀ m ∈ monthly_order,
      ((m, (none : Option ℚ)) ∈ monthly_sales t ↔ ∀ r ∈ t, r.monthName ≠ m)) := by
  refine ⟨?_, ?_, ?_⟩
  · simp [monthly_sales, monthly_order]
  · simp only [monthly_sales, List.map_map]
    exact List.map_id _ ▸ rfl
  · intro m hm
    have hlk := groupSumBy_lookup (fun r => r.monthName) t m
    have hmem : ((m, (none : Option ℚ)) ∈ monthly_sales t) ↔
        (groupSumBy (fun r => r.monthName) t).lookup m = none := by
      unfold monthly_sales
      constructor
      · intro h
        rcases List.mem_map.mp h with ⟨m1, _, heq⟩
        have h1 : m1 = m := congrArg Prod.fst heq
        subst h1
        exact congrArg Prod.snd heq
      · intro h
        exact List.mem_map.mpr ⟨m, hm, by rw [h]⟩
    have hkeys := mem_groupKeys (fun r => r.monthName) t m
    rw [hmem, hlk]
    by_cases hk : m ∈ sortBy strLe (uniqFirstSeen (t.map (fun r => r.monthName)))
    · rw [if_pos hk]
      rw [hkeys] at hk
      constructor
      · intro hno
        exact absurd hno (Option.some_ne_none _)
      · intro hall
        rcases hk with ⟨r, hr, hkey⟩
        exact absurd hkey (hall r hr)
    · rw [if_neg hk]
      rw [hkeys] at hk
      push_neg at hk
      constructor
      · intro _ r hr
        exact hk r hr
      · intro _
        rfl

/-- Witness for C3: March is absent from a concrete January-only table
yet appears in the result, carrying the missing value. -/
theorem C3_month_completeness_witness :
    ("March", (none : Option ℚ)) ∈ monthly_sales wtC3 :=
  ((C3_month_completeness wtC3).2.2 "March" (by decide)).mpr (by decide)

theorem getD_map_range (g : ℕ → ℚ) (nb j : ℕ) (h : j < nb + 1) :
    ((List.range (nb + 1)).map g).getD j 0 = g j := by
  rw [List.getD_eq_getElem?_getD, List.getElem?_map, List.getElem?_range h]
  rfl

/-- C4: for every continuous attribute and bin count, the bin edges are a
function of the unfiltered column's observed min and max alone; the
interior edges are equally spaced across [min, max]; the first bin
includes the minimum value; and tagging rows with their bin (using the
unfiltered edges) commutes with any date/holiday filter, so filtering
before or after binning assigns bins from identical edges. -/
theorem C4_binning_determinism (f : Row → ℚ) (nb : ℕ) (t u : Table)
    (d0 d1 : Int) (hf : String) :
    ((t.map f).min? = (u.map f).min? → (t.map f).max? = (u.map f).max? →
      colEdges f nb t = colEdges f nb u)
    ∧ (∀ mn mx : ℚ, mn < mx → ∀ i : ℕ, 1 ≤ i → i + 1 ≤ nb →
      (cutEdges mn mx nb).getD (i + 1) 0 - (cutEdges mn mx nb).getD i 0
        = (mx - mn) / nb)
    ∧ (∀ mn mx : ℚ, mn < mx → 1 ≤ nb →
      binIdx (cutEdges mn mx nb) mn = some 0)
    ∧ (withBin f (colEdges f nb t) (df_filtered t d0 d1 hf)
      = (withBin f (colEdges f nb t) t).filter
          (fun x => rowKeep d0 d1 hf x.1)) := by
  refine ⟨?_, ?_, ?_, ?_⟩
  · intro h1 h2
    unfold colEdges
    rw [h1, h2]
  · intro mn mx hlt i hi1 hi2
    have hne : ¬ mn = mx := ne_of_lt hlt
    unfold cutEdges
    rw [if_neg hne]
    rw [getD_map_range _ nb (i + 1) (by omega), getD_map_range _ nb i (by omega)]
    rw [if_neg (by omega : ¬ i + 1 = 0), if_neg (by omega : ¬ i = 0)]
    push_cast
    ring
  · intro mn mx hlt hnb
    have hne : ¬ mn = mx := ne_of_lt hlt
    obtain ⟨k, rfl⟩ : ∃ k, nb = k + 1 := ⟨nb - 1, by omega⟩
    unfold binIdx cutEdges
    rw [if_neg hne]
    have he0 : (((List.range (k + 1 + 1)).map fun i : ℕ =>
        if i = 0 then mn - (mx - mn) / 1000
        else mn + (i : ℚ) * (mx - mn) / ((k + 1 : ℕ) : ℚ)).getD 0 0)
          = mn - (mx - mn) / 1000 := by
      rw [getD_map_range _ (k + 1) 0 (by omega)]
      norm_num
    have he1 : (((List.range (k + 1 + 1)).map fun i : ℕ =>
        if i = 0 then mn - (mx - mn) / 1000
        else mn + (i : ℚ) * (mx - mn) / ((k + 1 : ℕ) : ℚ)).getD 1 0)
          = mn + (mx - mn) / ((k + 1 : ℕ) : ℚ) := by
      rw [getD_map_range _ (k + 1) 1 (by omega)]
      norm_num
    have hp0 : mn - (mx - mn) / 1000 < mn := by
      have hd : (0 : ℚ) < (mx - mn) / 1000 := by
        have : (0 : ℚ) < mx - mn := by linarith
        positivity
      linarith
    have hp1 : mn ≤ mn + (mx - mn) / ((k + 1 : ℕ) : ℚ) := by
      have hd : (0 : ℚ) ≤ (mx - mn) / ((k + 1 : ℕ) : ℚ) := by
        have : (0 : ℚ) ≤ mx - mn := by linarith
        positivity
      linarith
    have hlen : (((List.range (k + 1 + 1)).map fun i : ℕ =>
        if i = 0 then mn - (mx - mn) / 1000
        else mn + (i : ℚ) * (mx - mn) / ((k + 1 : ℕ) : ℚ)).length) - 1 = k + 1 := by
      simp
    rw [hlen]
    have hrange : List.range (k + 1) = 0 :: List.map Nat.succ (List.range k) :=
      List.range_succ_eq_map k
    rw [hrange]
    apply List.find?_cons_of_pos
    simp only [Nat.zero_add, he0, he1, Bool.and_eq_true, decide_eq_true_eq]
    exact ⟨hp0, hp1⟩
  · rw [df_filtered_eq_filter]
    unfold withBin
    exact map_pair_filter (fun r => binIdx (colEdges f nb t) (f r))
      (rowKeep d0 d1 hf) t

/-- Witness for C4: with edges computed from min 8 and max 13 over 5
bins, the minimum value 8 lands in the first bin. -/
theorem C4_binning_determinism_witness :
    binIdx (cutEdges 8 13 5) 8 = some 0 :=
  (C4_binning_determinism (fun r => r.fuelPrice) 5 [] [] 0 0 "All").2.2.1
    8 13 (by norm_num) (by norm_num)

/-- C5: a row enters an anchor's window iff its date lies within 14 days
of the anchor inclusive at both ends; the concatenation over anchors
selects exactly the per-anchor windows; `Delta_Week` is the floor
division of the day offset by 7 (truncation toward negative infinity),
so 14 days before maps to -2 and 14 days after to +2. -/
theorem C5_window_offset (t : Table) (anchor : Int) (name : String)
    (anchors : List Int) (r : Row) (k : Int) :
    ((r, name, k) ∈ windowFor t anchor name ↔
      r ∈ t ∧ anchor - 14 ≤ r.date ∧ r.date ≤ anchor + 14 ∧
        k = Int.fdiv (r.date - anchor) 7)
    ∧ ((r, name, k) ∈ get_holiday_windows t anchors name ↔
      ∃ a ∈ anchors, (r, name, k) ∈ windowFor t a name)
    ∧ (r.date = anchor - 14 → Int.fdiv (r.date - anchor) 7 = -2)
    ∧ (r.date = anchor + 14 → Int.fdiv (r.date - anchor) 7 = 2)
    ∧ (7 * Int.fdiv (r.date - anchor) 7 ≤ r.date - anchor ∧
      r.date - anchor < 7 * Int.fdiv (r.date - anchor) 7 + 7) := by
  refine ⟨?_, ?_, ?_, ?_, ?_⟩
  · unfold windowFor
    constructor
    · intro hmem
      rcases List.mem_map.mp hmem with ⟨x, hxf, heq⟩
      rcases List.mem_filter.mp hxf with ⟨hx, hcond⟩
      simp only [Bool.and_eq_true, decide_eq_true_eq] at hcond
      injection heq with h1 h23
      injection h23 with h2 h3
      subst h1
      exact ⟨hx, hcond.1, hcond.2, h3.symm⟩
    · rintro ⟨hx, hb1, hb2, rfl⟩
      refine List.mem_map.mpr ⟨r, List.mem_filter.mpr ⟨hx, ?_⟩, rfl⟩
      simp [hb1, hb2]
  · unfold get_holiday_windows
    simp only [List.mem_flatten, List.mem_map]
    constructor
    · rintro ⟨l, ⟨a, ha, rfl⟩, hm⟩
      exact ⟨a, ha, hm⟩
    · rintro ⟨a, ha, hm⟩
      exact ⟨windowFor t a name, ⟨a, ha, rfl⟩, hm⟩
  · intro h
    have hd : r.date - anchor = -14 := by omega
    rw [hd]
    decide
  · intro h
    have hd : r.date - anchor = 14 := by omega
    rw [hd]
    decide
  · rw [Int.fdiv_eq_ediv _ (by decide : (0 : Int) ≤ 7)]
    omega

/-- Witness for C5: a concrete row dated exactly 14 days before the
anchor gets `Delta_Week = -2`. -/
theorem C5_window_offset_witness :
    Int.fdiv (rowC5.date - 14) 7 = -2 :=
  (C5_window_offset [rowC5] 14 "Super Bowl" [] rowC5 (-2)).2.2.1 (by decide)

theorem liftRowFor_spec (t : Table) (ht : String) :
    (liftRowFor t ht).nAvg = meanOpt (salesOfType t "None")
    ∧ ((liftRowFor t ht).lift.isSome = true →
      ∃ b : ℚ, meanOpt (salesOfType t "None") = some b ∧ b ≠ 0) := by
  unfold liftRowFor
  refine ⟨rfl, ?_⟩
  cases hn : meanOpt (salesOfType t "None") with
  | none => simp [hn]
  | some b =>
      by_cases hb : b = 0
      · simp [hn, hb]
      · intro _
        exact ⟨b, rfl, hb⟩

/-- C6: every row surviving into the lift result has a defined, nonzero
non-holiday baseline (undefined or zero baselines are excluded rather
than reported as NaN or infinity); when the baseline is undefined (no
rows classified as None) or zero, the lift result is empty; and the
output is sorted descending by lift percentage.  The computation is a
total function, so no error is raised. -/
theorem C6_lift_baseline_exclusion (t : Table) :
    (∀ x ∈ df_lift t, ∃ b : ℚ, x.nAvg = some b ∧ b ≠ 0 ∧ x.lift.isSome = true)
    ∧ (meanOpt (salesOfType t "None") = none ∨
        meanOpt (salesOfType t "None") = some 0 → df_lift t = [])
    ∧ List.Chain' (fun a b => b.lift.getD 0 ≤ a.lift.getD 0) (df_lift t) := by
  refine ⟨?_, ?_, ?_⟩
  · intro x hx
    rw [df_lift, mem_sortBy] at hx
    rcases List.mem_filter.mp hx with ⟨hmap, hpred⟩
    rcases List.mem_map.mp hmap with ⟨ht, _, rfl⟩
    simp only [Bool.and_eq_true] at hpred
    rcases hpred with ⟨⟨_, _⟩, hl⟩
    rcases (liftRowFor_spec t ht).2 hl with ⟨b, hb, hbne⟩
    exact ⟨b, (liftRowFor_spec t ht).1.trans hb, hbne, hl⟩
  · intro h
    rw [df_lift]
    have hfil : (((holidayTypesOf t).map (liftRowFor t)).filter
        (fun x => x.hAvg.isSome && x.nAvg.isSome && x.lift.isSome)) = [] := by
      rw [List.filter_eq_nil_iff]
      intro x hx
      rcases List.mem_map.mp hx with ⟨ht, _, rfl⟩
      rcases h with h | h
      · simp [liftRowFor, h]
      · simp [liftRowFor, h]
    rw [hfil]
    rfl
  · have hch := chain_sortBy liftGe liftGe_total
      (((holidayTypesOf t).map (liftRowFor t)).filter
        (fun x => x.hAvg.isSome && x.nAvg.isSome && x.lift.isSome))
    exact hch.imp (fun a b hab => by
      simpa [liftGe, decide_eq_true_eq] using hab)

/-- Witness for C6: a concrete selection whose only row is a holiday week
has no non-holiday baseline and yields an empty lift result. -/
theorem C6_lift_baseline_exclusion_witness : df_lift wtC6 = [] :=
  (C6_lift_baseline_exclusion wtC6).2.1 (Or.inl (by with_unfolding_all decide))

/-- C8 counterexample: a source whose header contains only `Date` loads
successfully even though the required column `Store` is absent, so the
loader does not fail on missing required columns. -/
theorem C8_counterexample :
    load_data (some { header := ["Date"], rows := [] }) =
      .ok { header := ["Date"], rows := [] }
    ∧ "Store" ∈ requiredColumns
    ∧ "Store" ∉ ({ header := ["Date"], rows := [] } : CsvFile).header :=
  ⟨rfl, by decide, by decide⟩

/-- C8 (amended): loading succeeds exactly when the source is present,
rectangular, and has a `Date` column; absence of any other required
column (Store, Dept, Weekly_Sales, ...) is not detected at load time and
surfaces only later inside filtering or aggregation. -/
theorem C8_load_amended (src : Option CsvFile) :
    (∃ g, load_data src = .ok g) ↔
      ∃ f, src = some f ∧ (∀ row ∈ f.rows, row.length = f.header.length) ∧
        "Date" ∈ f.header := by
  cases src with
  | none => simp [load_data, read_csv]
  | some f =>
      simp only [load_data, read_csv, Option.some.injEq]
      by_cases hr : f.rows.all (fun row => row.length == f.header.length)
      · rw [if_pos hr]
        by_cases hd : f.header.contains "Date"
        · rw [if_pos hd]
          simp only [List.all_eq_true, beq_iff_eq] at hr
          replace hd : "Date" ∈ f.header := List.elem_iff.mp hd
          constructor
          · intro _
            exact ⟨f, rfl, hr, hd⟩
          · intro _
            exact ⟨f, rfl⟩
        · rw [if_neg hd]
          replace hd : "Date" ∉ f.header := fun hmem => hd (List.elem_eq_true_of_mem hmem)
          constructor
          · rintro ⟨g, hg⟩
            cases hg
          · rintro ⟨g, hg, _, hmem⟩
            cases hg
            exact absurd hmem hd
      · rw [if_neg hr]
        simp only [List.all_eq_true, beq_iff_eq] at hr
        constructor
        · rintro ⟨g, hg⟩
          cases hg
        · rintro ⟨g, hg, hrect, _⟩
          cases hg
          exact absurd hrect hr

set_option maxRecDepth 8000 in
/-- C9 counterexample: on a two-row table with fuel prices 8 and 13 the
five-bin group means come back keyed `(12.0, 13.0]` before
`(7.995, 9.0]` — lower bounds 12 then 7.995, not ascending — because the
stringified interval keys are sorted as strings. -/
theorem C9_counterexample :
    (fuel_sales ctC9).map Prod.fst = ["(12.0, 13.0]", "(7.995, 9.0]"]
    ∧ (fuel_sales ctC9).map
        (fun p => labelLowerBound (colEdges (fun s => s.fuelPrice) 5 ctC9) p.1)
      = [12, 1599/200]
    ∧ ¬ ((12 : ℚ) ≤ 1599/200) := by
  refine ⟨?_, ?_, ?_⟩
  · with_unfolding_all decide
  · with_unfolding_all decide
  · with_unfolding_all decide

/-- C9 (amended): the binned group-mean entries are ordered
lexicographically ascending by their stringified interval key (pandas
groups on the string label and sorts the keys as strings); this agrees
with lower-bound-ascending order only when string order coincides with
numeric order. -/
theorem C9_binned_order_amended (t : Table) :
    List.Chain' (fun a b => strLe a b = true) ((fuel_sales t).map Prod.fst)
    ∧ List.Chain' (fun a b => strLe a b = true) ((temp_sales t).map Prod.fst) := by
  constructor
  · unfold fuel_sales groupMeanBy
    rw [List.map_map]
    exact List.map_id _ ▸ chain_sortBy strLe strLe_total _
  · unfold temp_sales groupMeanBy
    rw [List.map_map]
    exact List.map_id _ ▸ chain_sortBy strLe strLe_total _

end RetailDashboard
